import Mathlib

/-
  Verification development for the Swapex chat backend core:
  identity normalization (src/routes.js normalizeVal), the conversation
  resolution upsert (POST "/"), the message append route
  (POST "/:id/message"), conversation retrieval (GET "/:id"), and the
  realtime room router (src/index.js socket.on send_message), embedded
  shallowly over an explicit record-store state.
-/

namespace Swapex

/-- Model of the JavaScript values the chat backend's handlers receive and
store: undefined, null, booleans, numbers, strings, plain objects carrying
reference fields spelled "_id" and "id" (an absent property reads as
undefined, so absence is represented by the undef value), store-native
reference tokens (Mongo ObjectId values, modelled as opaque tokens wrapping
their hex encoding, per the spec's external record-store interface), and
dates. -/
inductive JSVal where
  | undef : JSVal
  | null : JSVal
  | bool (b : Bool) : JSVal
  | num (n : Int) : JSVal
  | str (s : String) : JSVal
  | obj (idField1 : JSVal) (idField2 : JSVal) : JSVal
  | oid (hex : String) : JSVal
  | date (t : Nat) : JSVal
deriving DecidableEq, Repr

/-- JavaScript nullish coalescing `x ?? y`: `y` when `x` is undefined or
null, otherwise `x`. -/
def jsCoalesce (x y : JSVal) : JSVal :=
  match x with
  | .undef => y
  | .null => y
  | x => x

/-- Whether a string is composed entirely of decimal digits and nonempty:
the test `/^[0-9]+$/.test(v)` from src/routes.js line 13, expressed over
the string's character list. -/
def isDigitString (s : String) : Bool :=
  !s.data.isEmpty && s.data.all (·.isDigit)

/-- `Number(s)` on a string of decimal digits (src/routes.js line 13):
the base-ten value of the digit characters. -/
def digitStringToNum (s : String) : Int :=
  Int.ofNat (s.data.foldl (fun acc c => acc * 10 + (c.toNat - '0'.toNat)) 0)

/-- Whether a character is a lowercase hexadecimal digit. -/
def isHexDigitChar (c : Char) : Bool :=
  c.isDigit || ('a' ≤ c && c ≤ 'f')

/-- Modelled from the spec: `mongoose.Types.ObjectId.isValid` on a string,
the store-native reference encoding check (src/routes.js line 16 calls into
the external store library; the spec's §4.1 "a string that is a valid
store-native reference encoding"): a 24-character hexadecimal string. -/
def isValidRefEncoding (s : String) : Bool :=
  s.data.length = 24 && s.data.all isHexDigitChar

/-- The reference extraction `v._id ?? v.id ?? v` performed by
src/routes.js line 10 on object-shaped input: no recursive normalization
is applied to the extracted field. -/
def objExtract (f g : JSVal) : JSVal :=
  jsCoalesce f (jsCoalesce g (.obj f g))

/-- Lean embedding of `normalizeVal` (src/routes.js lines 8-20, identical
copy in src/index.js): null/undefined map to null; object-shaped input has
its reference field extracted via `v._id ?? v.id ?? v`; a digit string
becomes a number via `Number`; a valid store-reference string becomes a
reference token (construction modelled total per the spec's external
record-store interface, the token opaque with no extractable fields);
everything else passes through unchanged. -/
def normalizeVal : JSVal → JSVal
  | .undef => .null
  | .null => .null
  | .obj f g => objExtract f g
  | .oid h => .oid h
  | .str s =>
      if isDigitString s then .num (digitStringToNum s)
      else if isValidRefEncoding s then .oid s
      else .str s
  | .bool b => .bool b
  | .num n => .num n
  | .date t => .date t

/-- A stored chat message: normalized-or-raw sender, opaque text, and the
creation timestamp slot of the message schema (src/models.js lines 4-11). -/
structure Message where
  sender : JSVal
  text : String
  createdAt : Nat
deriving DecidableEq, Repr

/-- A stored conversation record: system-assigned id, the three identity
fields, and the ordered embedded message log (src/models.js lines 13-18). -/
structure Conversation where
  cid : String
  product : JSVal
  buyer : JSVal
  seller : JSVal
  messages : List Message
deriving DecidableEq, Repr

/-- The record-store state: conversations in insertion (natural) order,
plus a counter from which the store assigns fresh ids. -/
structure DB where
  convos : List Conversation
  nextId : Nat
deriving DecidableEq, Repr

/-- The lowercase hex digit for a value below 16. -/
def hexDigitChar (n : Nat) : Char :=
  "0123456789abcdef".toList.getD n '0'

/-- Modelled from the spec: the external store assigns fresh ids; rendered
as 24 hex characters in the shape of a store-native reference encoding. -/
def freshId (n : Nat) : String :=
  String.mk ((List.range 24).map (fun i => hexDigitChar (n / 16 ^ (23 - i) % 16)))

/-- Whether a string is a well-formed store key for the by-id routes: the
store's cast of a route `:id` parameter succeeds exactly on valid
reference encodings, and throws a CastError otherwise. -/
def wellFormedId (s : String) : Bool :=
  isValidRefEncoding s

/-- An equality query over the three identity fields of a conversation; a
field left out of the query object is unconstrained. -/
structure ConvQuery where
  productQ : Option JSVal
  buyerQ : Option JSVal
  sellerQ : Option JSVal
deriving DecidableEq, Repr

/-- One equality constraint of a query against a stored field: an omitted
field matches every stored value. -/
def fieldMatches (q : Option JSVal) (v : JSVal) : Bool :=
  match q with
  | none => true
  | some w => v = w

/-- Whether a stored conversation matches a query (the store's find
semantics: conjunction of the per-field equality constraints). -/
def convMatches (q : ConvQuery) (c : Conversation) : Bool :=
  fieldMatches q.productQ c.product &&
  fieldMatches q.buyerQ c.buyer &&
  fieldMatches q.sellerQ c.seller

/-- The query object built by POST "/" (src/routes.js lines 35-38) from
the already-normalized values: each field is added only when the
normalized value is not null (`if (product !== null) query.product = ...`),
so a null field is omitted from the query entirely. -/
def buildResolveQuery (p b s : JSVal) : ConvQuery :=
  { productQ := if p = .null then none else some p
    buyerQ := if b = .null then none else some b
    sellerQ := if s = .null then none else some s }

/-- The fresh conversation record the upsert inserts when nothing
matches: a store-assigned id, the three normalized identity fields, and an
empty message log. -/
def mkConvo (n : Nat) (p b s : JSVal) : Conversation :=
  { cid := freshId n, product := p, buyer := b, seller := s, messages := [] }

/-- Lean embedding of POST "/" (src/routes.js lines 22-60): normalize the
three raw inputs, build the equality query dropping null fields, and run
the store's atomic findOneAndUpdate with upsert and $setOnInsert — return
the first matching stored conversation unchanged, or, when none matches,
insert a fresh record with the normalized fields and an empty message log
and return it. -/
def resolve (db : DB) (pRaw bRaw sRaw : JSVal) : Conversation × DB :=
  let p := normalizeVal pRaw
  let b := normalizeVal bRaw
  let s := normalizeVal sRaw
  let q := buildResolveQuery p b s
  match db.convos.find? (fun c => convMatches q c) with
  | some c => (c, db)
  | none =>
      let c := mkConvo db.nextId p b s
      (c, { convos := db.convos ++ [c], nextId := db.nextId + 1 })

/-- The store's atomic $push of one message into the conversation with the
given id: returns the updated conversation and the updated store contents,
or none when no conversation carries that id. -/
def pushMessage (m : Message) (cs : List Conversation) (i : String) :
    Option (Conversation × List Conversation) :=
  match cs with
  | [] => none
  | c :: rest =>
      if c.cid = i then
        let c' : Conversation := { c with messages := c.messages ++ [m] }
        some (c', c' :: rest)
      else
        match pushMessage m rest i with
        | none => none
        | some (c', rest') => some (c', c :: rest')

/-- Outcome of the message append route, mirroring its three exits:
200 with the updated conversation, 404 conversation-not-found, and 400
invalid conversation id (the CastError branch). -/
inductive AppendOutcome where
  | ok (c : Conversation) : AppendOutcome
  | notFound : AppendOutcome
  | badId : AppendOutcome
deriving DecidableEq, Repr

/-- Lean embedding of POST "/:id/message" (src/routes.js lines 84-115):
normalize the sender, atomically push `{sender, text}` (the message
schema's default stamps createdAt with the append time) via
findByIdAndUpdate, answer 404 when the id matches no conversation, and
answer 400 when the id is not a well-formed store key (the store's cast
throws a CastError which the route maps to 400). -/
def appendMessage (db : DB) (i : String) (senderRaw : JSVal) (text : String)
    (now : Nat) : AppendOutcome × DB :=
  if wellFormedId i then
    let m : Message := { sender := normalizeVal senderRaw, text := text, createdAt := now }
    match pushMessage m db.convos i with
    | none => (.notFound, db)
    | some (c', cs') => (.ok c', { db with convos := cs' })
  else
    (.badId, db)

/-- Outcome of the conversation retrieval route: 200 with the record, 404
when the id matches no conversation, and the generic 500 catch-all. -/
inductive GetOutcome where
  | ok (c : Conversation) : GetOutcome
  | notFound : GetOutcome
  | serverError : GetOutcome
deriving DecidableEq, Repr

/-- Lean embedding of GET "/:id" (src/routes.js lines 137-147): findById
and answer 404 when nothing is found; an ill-formed id makes the store's
cast throw, and the route's only catch branch answers the generic 500 —
there is no CastError-to-404 or -400 mapping in this handler. -/
def getConversation (db : DB) (i : String) : GetOutcome :=
  if wellFormedId i then
    match db.convos.find? (fun c => c.cid = i) with
    | some c => .ok c
    | none => .notFound
  else
    .serverError

/-- A live realtime connection handle. -/
abbrev ConnId := Nat

/-- The room-membership table of the realtime router: which connections
are currently in which conversation group. Socket rooms are sets, so join
is idempotent. -/
structure RoomState where
  membership : List (ConnId × String)
deriving DecidableEq, Repr

/-- socket.join(conversationId) (src/index.js join_room handler): add the
connection to the named group; joining twice is a no-op. -/
def joinRoom (rs : RoomState) (conn : ConnId) (room : String) : RoomState :=
  if (conn, room) ∈ rs.membership then rs
  else { membership := (conn, room) :: rs.membership }

/-- The connections currently in the group for a conversation id. -/
def roomMembers (rs : RoomState) (room : String) : List ConnId :=
  (rs.membership.filter (fun p => p.2 = room)).map (fun p => p.1)

/-- Whether a connection is a member of a group. -/
def inRoom (rs : RoomState) (conn : ConnId) (room : String) : Bool :=
  (conn, room) ∈ rs.membership

/-- One outbound realtime emission: a receive_message event carrying a
message payload (a JS object modelled as its field-name/value pairs), or a
message_error event; each is delivered to one target connection. -/
inductive Emit where
  | receiveMsg (target : ConnId) (payload : List (String × JSVal)) : Emit
  | msgError (target : ConnId) (error : String) : Emit
deriving DecidableEq, Repr

/-- The target connection of an emission. -/
def Emit.target : Emit → ConnId
  | .receiveMsg t _ => t
  | .msgError t _ => t

/-- Lean embedding of socket.on send_message in src/index.js (lines
166-193), the variant in force: build the normalized message
`{sender: normalizeVal(message.sender), text, createdAt: new Date()}`,
atomically push it via findByIdAndUpdate, and on success emit
receive_message carrying just that message to every connection in the
conversation's group; when the id matches no conversation, emit
message_error to the sending connection only; a store cast failure lands
in the catch branch, which also emits message_error to the sender only. -/
def sendMessageAtomic (db : DB) (rs : RoomState) (sender : ConnId)
    (conversationId : String) (msgSender : JSVal) (msgText : String)
    (now : Nat) : DB × List Emit :=
  if wellFormedId conversationId then
    let m : Message := { sender := normalizeVal msgSender, text := msgText, createdAt := now }
    let payload : List (String × JSVal) :=
      [("sender", normalizeVal msgSender), ("text", .str msgText), ("createdAt", .date now)]
    match pushMessage m db.convos conversationId with
    | none => (db, [.msgError sender "Conversation not found"])
    | some (_, cs') =>
        ({ db with convos := cs' },
         (roomMembers rs conversationId).map (fun c => .receiveMsg c payload))
  else
    (db, [.msgError sender "Failed to send message"])

/-- Lean embedding of socket.on send_message in src/unnamed/part_000
(lines 94-120) and src/unnamed/part_001 (lines 97-126), the load-push-save
variant: findById the conversation, build
`{sender: message.sender, text, timestamp: message.timestamp || new Date()}`
from the raw sender and the client-supplied timestamp when present, push it
onto the loaded record and save, then emit receive_message carrying that
object to every connection in the conversation's group; the not-found and
catch branches emit message_error to the sending connection only. The
pushed record's time value is modelled in the stored message's createdAt
slot (the source spells the field `timestamp`). -/
def sendMessageLoadSave (db : DB) (rs : RoomState) (sender : ConnId)
    (conversationId : String) (msgSender : JSVal) (msgText : String)
    (clientTs : Option Nat) (now : Nat) : DB × List Emit :=
  if wellFormedId conversationId then
    let ts : Nat := clientTs.getD now
    let m : Message := { sender := msgSender, text := msgText, createdAt := ts }
    let payload : List (String × JSVal) :=
      [("sender", msgSender), ("text", .str msgText), ("timestamp", .date ts)]
    match pushMessage m db.convos conversationId with
    | none => (db, [.msgError sender "Conversation not found"])
    | some (_, cs') =>
        ({ db with convos := cs' },
         (roomMembers rs conversationId).map (fun c => .receiveMsg c payload))
  else
    (db, [.msgError sender "Failed to send message"])

/-- The empty store state. -/
def emptyDB : DB := { convos := [], nextId := 0 }

/-- A sample stored conversation between buyer 5 and seller 2 about
product 1, used by concrete instantiations. -/
def sampleConvo : Conversation :=
  { cid := freshId 0, product := .num 1, buyer := .num 5, seller := .num 2
    messages := [] }

/-- A store holding just the sample conversation. -/
def sampleDB : DB := { convos := [sampleConvo], nextId := 1 }

/-- A room table where connections 1 and 2 are in the sample
conversation's group and connection 3 is in an unrelated group. -/
def sampleRooms : RoomState :=
  joinRoom (joinRoom (joinRoom { membership := [] } 1 sampleConvo.cid)
    2 sampleConvo.cid) 3 "ffffffffffffffffffffffff"

theorem pushMessage_eq_none_iff (m : Message) (cs : List Conversation) (i : String) :
    pushMessage m cs i = none ↔ ∀ c ∈ cs, c.cid ≠ i := by
  induction cs with
  | nil => simp [pushMessage]
  | cons c rest ih =>
      by_cases h : c.cid = i
      · simp [pushMessage, h]
      · cases hrec : pushMessage m rest i with
        | none =>
            simp only [pushMessage, if_neg h, hrec, List.mem_cons]
            constructor
            · intro _ d hd
              rcases hd with hd | hd
              · simpa [hd] using h
              · exact (ih.mp hrec) d hd
            · intro _
              trivial
        | some x =>
            simp only [pushMessage, if_neg h, hrec, List.mem_cons]
            constructor
            · intro hx
              exact absurd hx (by simp)
            · intro hall
              have : pushMessage m rest i = none := ih.mpr fun d hd => hall d (Or.inr hd)
              rw [this] at hrec
              exact absurd hrec (by simp)

theorem pushMessage_eq_of_split (m : Message) (i : String) (pre post : List Conversation)
    (c : Conversation) (hpre : ∀ d ∈ pre, d.cid ≠ i) (hc : c.cid = i) :
    pushMessage m (pre ++ c :: post) i =
      some ({ c with messages := c.messages ++ [m] },
            pre ++ { c with messages := c.messages ++ [m] } :: post) := by
  induction pre with
  | nil => simp [pushMessage, hc]
  | cons d rest ih =>
      have hd : d.cid ≠ i := hpre d (by simp)
      have hrest : ∀ e ∈ rest, e.cid ≠ i := fun e he => hpre e (by simp [he])
      simp [pushMessage, hd, ih hrest]

theorem find?_append_of_none {α : Type} (p : α → Bool) (l₁ l₂ : List α)
    (h : l₁.find? p = none) : (l₁ ++ l₂).find? p = l₂.find? p := by
  induction l₁ with
  | nil => simp
  | cons a rest ih =>
      by_cases ha : p a
      · rw [List.find?_cons_of_pos _ ha] at h
        exact absurd h (by simp)
      · rw [List.find?_cons_of_neg _ (by simpa using ha)] at h
        simpa [List.find?_cons_of_neg _ (by simpa using ha : ¬ p a = true)] using ih h

theorem convMatches_build_self (p b s : JSVal) (n : Nat) :
    convMatches (buildResolveQuery p b s) (mkConvo n p b s) = true := by
  simp only [convMatches, buildResolveQuery, fieldMatches, mkConvo]
  refine by_cases (fun hp : p = .null => ?_) (fun hp => ?_) <;>
  refine by_cases (fun hb : b = .null => ?_) (fun hb => ?_) <;>
  refine by_cases (fun hs : s = .null => ?_) (fun hs => ?_) <;>
  simp [hp, hb, hs]

/-- C1 (counterexample): the claim that resolve(p, b, s) and
resolve(p, s, b) return the same Conversation id is false on the code: the
POST "/" query matches product, buyer and seller exactly, with no
bidirectional disjunction, so after resolve(1, 2, 3) creates a
conversation, the swapped call resolve(1, 3, 2) matches nothing and
creates a second conversation with a different id. -/
theorem C1_counterexample :
    (resolve (resolve emptyDB (JSVal.num 1) (JSVal.num 2) (JSVal.num 3)).2
        (JSVal.num 1) (JSVal.num 3) (JSVal.num 2)).1.cid ≠
      (resolve emptyDB (JSVal.num 1) (JSVal.num 2) (JSVal.num 3)).1.cid := by
  decide

/-- C1 (amended): with all three identifiers normalizing to non-null
values, resolving and then resolving with buyer and seller swapped returns
the same Conversation id exactly when the normalized buyer equals the
normalized seller; when they differ, the swapped call fails the exact-match
query and creates a second conversation with a different id — the lookup
is not bidirectional. -/
theorem C1_amended (pRaw bRaw sRaw : JSVal)
    (hp : normalizeVal pRaw ≠ JSVal.null) (hb : normalizeVal bRaw ≠ JSVal.null)
    (hs : normalizeVal sRaw ≠ JSVal.null) :
    (normalizeVal bRaw = normalizeVal sRaw →
      (resolve (resolve emptyDB pRaw bRaw sRaw).2 pRaw sRaw bRaw).1.cid =
        (resolve emptyDB pRaw bRaw sRaw).1.cid) ∧
    (normalizeVal bRaw ≠ normalizeVal sRaw →
      (resolve (resolve emptyDB pRaw bRaw sRaw).2 pRaw sRaw bRaw).1.cid ≠
        (resolve emptyDB pRaw bRaw sRaw).1.cid) := by
  constructor
  · intro hbs
    have hm : convMatches
        (buildResolveQuery (normalizeVal pRaw) (normalizeVal sRaw) (normalizeVal bRaw))
        (mkConvo 0 (normalizeVal pRaw) (normalizeVal bRaw) (normalizeVal sRaw)) = true := by
      simp [convMatches, buildResolveQuery, fieldMatches, mkConvo, if_neg hp, if_neg hb,
        if_neg hs, hbs]
    have h2 : resolve { convos := [mkConvo 0 (normalizeVal pRaw) (normalizeVal bRaw)
          (normalizeVal sRaw)], nextId := 1 } pRaw sRaw bRaw =
        (mkConvo 0 (normalizeVal pRaw) (normalizeVal bRaw) (normalizeVal sRaw),
         { convos := [mkConvo 0 (normalizeVal pRaw) (normalizeVal bRaw)
             (normalizeVal sRaw)], nextId := 1 }) := by
      simp only [resolve]
      rw [List.find?_cons_of_pos _ hm]
    show (resolve { convos := [mkConvo 0 (normalizeVal pRaw) (normalizeVal bRaw)
        (normalizeVal sRaw)], nextId := 1 } pRaw sRaw bRaw).1.cid = freshId 0
    rw [h2]
    rfl
  · intro hbs
    have hm : convMatches
        (buildResolveQuery (normalizeVal pRaw) (normalizeVal sRaw) (normalizeVal bRaw))
        (mkConvo 0 (normalizeVal pRaw) (normalizeVal bRaw) (normalizeVal sRaw)) = false := by
      simp [convMatches, buildResolveQuery, fieldMatches, mkConvo, if_neg hp, if_neg hb,
        if_neg hs, hbs, Ne.symm hbs]
    have h2 : resolve { convos := [mkConvo 0 (normalizeVal pRaw) (normalizeVal bRaw)
          (normalizeVal sRaw)], nextId := 1 } pRaw sRaw bRaw =
        (mkConvo 1 (normalizeVal pRaw) (normalizeVal sRaw) (normalizeVal bRaw),
         { convos := [mkConvo 0 (normalizeVal pRaw) (normalizeVal bRaw) (normalizeVal sRaw),
             mkConvo 1 (normalizeVal pRaw) (normalizeVal sRaw) (normalizeVal bRaw)],
           nextId := 2 }) := by
      simp only [resolve]
      rw [List.find?_cons_of_neg _ (by simp [hm])]
      rfl
    show (resolve { convos := [mkConvo 0 (normalizeVal pRaw) (normalizeVal bRaw)
        (normalizeVal sRaw)], nextId := 1 } pRaw sRaw bRaw).1.cid ≠ freshId 0
    rw [h2]
    show freshId 1 ≠ freshId 0
    decide

/-- C1 (witness): the amended statement instantiated where buyer and
seller normalize to the same value, so the swapped call does return the
same conversation id. -/
theorem C1_amended_witness :
    (resolve (resolve emptyDB (JSVal.num 1) (JSVal.num 2) (JSVal.num 2)).2
        (JSVal.num 1) (JSVal.num 2) (JSVal.num 2)).1.cid =
      (resolve emptyDB (JSVal.num 1) (JSVal.num 2) (JSVal.num 2)).1.cid :=
  (C1_amended (.num 1) (.num 2) (.num 2) (by decide) (by decide) (by decide)).1
    (by decide)

/-- C2 (counterexample): the claim that a null identifier never matches
any other identity is false on the code: resolving with product 1, buyer
null, seller 2 against a store whose only conversation has buyer 5 returns
that very conversation — the null buyer was dropped from the query and
matched a conversation whose buyer holds a different identity. -/
theorem C2_counterexample :
    (resolve sampleDB (JSVal.num 1) JSVal.null (JSVal.num 2)).1 = sampleConvo ∧
      sampleConvo.buyer = JSVal.num 5 := by
  decide

/-- C2 (amended): a null or absent identifier normalizes to null and the
resolution route then omits that field from the query, so the null field
is a wildcard: the match predicate is independent of the stored buyer
identity — two candidate conversations agreeing on product and seller
match equally, whatever their buyer fields hold. -/
theorem C2_amended (pRaw bRaw sRaw : JSVal) (h : normalizeVal bRaw = JSVal.null)
    (c c' : Conversation) (hp : c.product = c'.product) (hs : c.seller = c'.seller) :
    convMatches (buildResolveQuery (normalizeVal pRaw) (normalizeVal bRaw)
        (normalizeVal sRaw)) c =
      convMatches (buildResolveQuery (normalizeVal pRaw) (normalizeVal bRaw)
        (normalizeVal sRaw)) c' := by
  simp [convMatches, buildResolveQuery, fieldMatches, h, hp, hs]

/-- C2 (witness): the amended statement instantiated at the sample
conversation against a copy whose buyer is replaced by a different
identity: the null-buyer query cannot tell them apart. -/
theorem C2_amended_witness :
    convMatches (buildResolveQuery (normalizeVal (JSVal.num 1))
        (normalizeVal JSVal.null) (normalizeVal (JSVal.num 2))) sampleConvo =
      convMatches (buildResolveQuery (normalizeVal (JSVal.num 1))
        (normalizeVal JSVal.null) (normalizeVal (JSVal.num 2)))
        { sampleConvo with buyer := JSVal.num 99 } :=
  C2_amended (.num 1) .null (.num 2) (by decide) sampleConvo
    { sampleConvo with buyer := JSVal.num 99 } (by decide) (by decide)

/-- C3: resolution is idempotent and pure on hits — resolving twice
sequentially with the same raw triple returns the same conversation both
times, and whenever the store already holds a matching conversation the
route returns exactly that stored record, rewriting no field, reordering
nothing, and leaving the store unchanged. -/
theorem C3_resolve_idempotent_and_pure (db : DB) (pRaw bRaw sRaw : JSVal) :
    ((resolve (resolve db pRaw bRaw sRaw).2 pRaw bRaw sRaw).1 =
       (resolve db pRaw bRaw sRaw).1) ∧
    (∀ c, db.convos.find? (fun c =>
        convMatches (buildResolveQuery (normalizeVal pRaw) (normalizeVal bRaw)
          (normalizeVal sRaw)) c) = some c →
      resolve db pRaw bRaw sRaw = (c, db)) := by
  constructor
  · cases hfind : db.convos.find? (fun c =>
        convMatches (buildResolveQuery (normalizeVal pRaw) (normalizeVal bRaw)
          (normalizeVal sRaw)) c) with
    | some c =>
        have h1 : resolve db pRaw bRaw sRaw = (c, db) := by
          simp [resolve, hfind]
        rw [h1, h1]
    | none =>
        have h1 : resolve db pRaw bRaw sRaw =
            (mkConvo db.nextId (normalizeVal pRaw) (normalizeVal bRaw) (normalizeVal sRaw),
             { convos := db.convos ++ [mkConvo db.nextId (normalizeVal pRaw)
                 (normalizeVal bRaw) (normalizeVal sRaw)],
               nextId := db.nextId + 1 }) := by
          simp [resolve, hfind]
        have h2 : (db.convos ++ [mkConvo db.nextId (normalizeVal pRaw)
            (normalizeVal bRaw) (normalizeVal sRaw)]).find? (fun c =>
              convMatches (buildResolveQuery (normalizeVal pRaw) (normalizeVal bRaw)
                (normalizeVal sRaw)) c) =
            some (mkConvo db.nextId (normalizeVal pRaw) (normalizeVal bRaw)
              (normalizeVal sRaw)) := by
          rw [find?_append_of_none _ _ _ hfind]
          exact List.find?_cons_of_pos _ (convMatches_build_self _ _ _ _)
        rw [h1]
        simp [resolve, h2]
  · intro c hc
    simp [resolve, hc]

/-- C3 (witness): the idempotence and hit-purity statement instantiated
at the sample store. -/
theorem C3_witness :
    ((resolve (resolve sampleDB (JSVal.num 1) JSVal.null (JSVal.num 2)).2
        (JSVal.num 1) JSVal.null (JSVal.num 2)).1 =
      (resolve sampleDB (JSVal.num 1) JSVal.null (JSVal.num 2)).1) ∧
    resolve sampleDB (JSVal.num 1) JSVal.null (JSVal.num 2) =
      (sampleConvo, sampleDB) :=
  ⟨(C3_resolve_idempotent_and_pure sampleDB (.num 1) .null (.num 2)).1,
   (C3_resolve_idempotent_and_pure sampleDB (.num 1) .null (.num 2)).2
     sampleConvo (by decide)⟩

/-- C4 (counterexample): identifier normalization is not idempotent on
the reference-object shape: an object whose reference field holds the
numeric string "42" normalizes to the string "42" (the extraction does not
re-normalize), while a second normalization turns that string into the
number 42. -/
theorem C4_counterexample :
    normalizeVal (normalizeVal (JSVal.obj (JSVal.str "42") JSVal.undef)) ≠
      normalizeVal (JSVal.obj (JSVal.str "42") JSVal.undef) := by
  decide

/-- C4 (amended): normalization is idempotent on every non-object shape
(integers, numeric strings, reference-encoding strings, opaque strings,
null, booleans, reference tokens, dates); an object-shaped input is
normalized by extracting its reference field without re-normalizing it, so
normalize∘normalize agrees with normalize on an object exactly when the
extracted field is already a normal form — which the numeric-string
reference of the counterexample is not. -/
theorem C4_amended :
    (∀ v : JSVal, (∀ f g, v ≠ JSVal.obj f g) →
        normalizeVal (normalizeVal v) = normalizeVal v) ∧
    (∀ f g, normalizeVal (JSVal.obj f g) = objExtract f g) ∧
    (∀ f g, normalizeVal (objExtract f g) = objExtract f g →
        normalizeVal (normalizeVal (JSVal.obj f g)) = normalizeVal (JSVal.obj f g)) := by
  refine ⟨?_, fun f g => rfl, ?_⟩
  · intro v hv
    cases v with
    | undef => rfl
    | null => rfl
    | bool b => rfl
    | num n => rfl
    | date t => rfl
    | oid h => rfl
    | str s =>
        by_cases hd : isDigitString s
        · simp [normalizeVal, hd]
        · by_cases hr : isValidRefEncoding s
          · simp [normalizeVal, hd, hr]
          · simp [normalizeVal, hd, hr]
    | obj f g => exact absurd rfl (hv f g)
  · intro f g hfix
    calc normalizeVal (normalizeVal (JSVal.obj f g))
        = normalizeVal (objExtract f g) := rfl
      _ = objExtract f g := hfix
      _ = normalizeVal (JSVal.obj f g) := rfl

/-- C4 (witness): the amended statement instantiated at a numeric string
(idempotent) and at an object carrying an integer reference, which is
already a normal form and hence idempotent. -/
theorem C4_amended_witness :
    normalizeVal (normalizeVal (JSVal.str "42")) = normalizeVal (JSVal.str "42") ∧
    normalizeVal (JSVal.obj (JSVal.num 7) JSVal.undef) =
      objExtract (JSVal.num 7) JSVal.undef ∧
    normalizeVal (normalizeVal (JSVal.obj (JSVal.num 7) JSVal.undef)) =
      normalizeVal (JSVal.obj (JSVal.num 7) JSVal.undef) :=
  ⟨C4_amended.1 (.str "42") (fun f g h => JSVal.noConfusion h),
   C4_amended.2.1 (.num 7) .undef,
   C4_amended.2.2 (.num 7) .undef (by decide)⟩

/-- C5: the identity normalizer is a total function over every input
shape, never failing: a digit-only string becomes an integer, a
non-digit string that is a valid store-native reference encoding becomes a
reference token, an object-shaped input has its reference field extracted,
an unrecognized string passes through as an opaque string, and
null/undefined, numbers, booleans and dates all map to plain values. -/
theorem C5_normalize_total_shapes :
    (∀ s, isDigitString s = true →
        normalizeVal (JSVal.str s) = JSVal.num (digitStringToNum s)) ∧
    (∀ s, isDigitString s = false → isValidRefEncoding s = true →
        normalizeVal (JSVal.str s) = JSVal.oid s) ∧
    (∀ f g, normalizeVal (JSVal.obj f g) = objExtract f g) ∧
    (∀ s, isDigitString s = false → isValidRefEncoding s = false →
        normalizeVal (JSVal.str s) = JSVal.str s) ∧
    (normalizeVal JSVal.undef = JSVal.null ∧ normalizeVal JSVal.null = JSVal.null) ∧
    (∀ n, normalizeVal (JSVal.num n) = JSVal.num n) ∧
    (∀ b, normalizeVal (JSVal.bool b) = JSVal.bool b) ∧
    (∀ t, normalizeVal (JSVal.date t) = JSVal.date t) := by
  refine ⟨?_, ?_, fun f g => rfl, ?_, ⟨rfl, rfl⟩, fun n => rfl, fun b => rfl,
    fun t => rfl⟩
  · intro s h
    simp [normalizeVal, h]
  · intro s h1 h2
    simp [normalizeVal, h1, h2]
  · intro s h1 h2
    simp [normalizeVal, h1, h2]

/-- C5 (witness): the shape clauses instantiated at the numeric string
"42", a 24-hex reference encoding, an object with an integer reference,
and the opaque string "hello". -/
theorem C5_witness :
    normalizeVal (JSVal.str "42") = JSVal.num (digitStringToNum "42") ∧
    normalizeVal (JSVal.str "aaaaaaaaaaaaaaaaaaaaaaaa") =
      JSVal.oid "aaaaaaaaaaaaaaaaaaaaaaaa" ∧
    normalizeVal (JSVal.obj (JSVal.num 7) JSVal.undef) =
      objExtract (JSVal.num 7) JSVal.undef ∧
    normalizeVal (JSVal.str "hello") = JSVal.str "hello" :=
  ⟨C5_normalize_total_shapes.1 "42" (by decide),
   C5_normalize_total_shapes.2.1 "aaaaaaaaaaaaaaaaaaaaaaaa" (by decide) (by decide),
   C5_normalize_total_shapes.2.2.1 (.num 7) .undef,
   C5_normalize_total_shapes.2.2.2.1 "hello" (by decide) (by decide)⟩

/-- C6: the message append route answers 400 (a result distinct from 404)
when the conversation id is not a well-formed store key, and answers 404
without touching the store when the id is well-formed but no conversation
carries it — in particular no record is created on either failure. -/
theorem C6_append_error_cases (db : DB) (i : String) (senderRaw : JSVal)
    (text : String) (now : Nat) :
    (wellFormedId i = false →
        appendMessage db i senderRaw text now = (.badId, db)) ∧
    (wellFormedId i = true → (∀ c ∈ db.convos, c.cid ≠ i) →
        appendMessage db i senderRaw text now = (.notFound, db)) ∧
    AppendOutcome.badId ≠ AppendOutcome.notFound := by
  refine ⟨?_, ?_, by simp⟩
  · intro h
    simp [appendMessage, h]
  · intro h hall
    have hpush : pushMessage
        { sender := normalizeVal senderRaw, text := text, createdAt := now }
        db.convos i = none :=
      (pushMessage_eq_none_iff _ _ _).mpr hall
    simp [appendMessage, h, hpush]

/-- C6 (witness): the error cases instantiated at the sample store with
the ill-formed key "nonexistent-id" and with a well-formed key that no
stored conversation carries. -/
theorem C6_witness :
    appendMessage sampleDB "nonexistent-id" (JSVal.num 5) "hi" 3 =
      (AppendOutcome.badId, sampleDB) ∧
    appendMessage sampleDB "bbbbbbbbbbbbbbbbbbbbbbbb" (JSVal.num 5) "hi" 3 =
      (AppendOutcome.notFound, sampleDB) :=
  ⟨(C6_append_error_cases sampleDB "nonexistent-id" (.num 5) "hi" 3).1 (by decide),
   (C6_append_error_cases sampleDB "bbbbbbbbbbbbbbbbbbbbbbbb" (.num 5) "hi" 3).2.1
     (by decide) (by decide)⟩

/-- C7: a successful append writes exactly one message — normalized
sender, the given text, createdAt stamped with the append time — at the
end of the target conversation's log, leaves the conversation's id,
product, buyer, seller and all previously stored messages unchanged,
leaves every other stored conversation untouched, and returns the updated
conversation; appending m1 then m2 sequentially leaves the log extended by
[m1, m2] in that order. -/
theorem C7_append_appends (db : DB) (pre post : List Conversation)
    (c : Conversation) (sr1 : JSVal) (t1 : String) (n1 : Nat)
    (hdb : db.convos = pre ++ c :: post) (hpre : ∀ d ∈ pre, d.cid ≠ c.cid)
    (hwf : wellFormedId c.cid = true) :
    (appendMessage db c.cid sr1 t1 n1 =
      (.ok { c with messages := c.messages ++
           [{ sender := normalizeVal sr1, text := t1, createdAt := n1 }] },
       { db with convos := pre ++ { c with messages := c.messages ++
           [{ sender := normalizeVal sr1, text := t1, createdAt := n1 }] } :: post })) ∧
    (∀ sr2 t2 n2,
      (appendMessage (appendMessage db c.cid sr1 t1 n1).2 c.cid sr2 t2 n2).1 =
        .ok { c with messages := c.messages ++
          [{ sender := normalizeVal sr1, text := t1, createdAt := n1 },
           { sender := normalizeVal sr2, text := t2, createdAt := n2 }] }) := by
  have hpush1 := pushMessage_eq_of_split
    { sender := normalizeVal sr1, text := t1, createdAt := n1 } c.cid pre post c hpre rfl
  have h1 : appendMessage db c.cid sr1 t1 n1 =
      (.ok { c with messages := c.messages ++
           [{ sender := normalizeVal sr1, text := t1, createdAt := n1 }] },
       { db with convos := pre ++ { c with messages := c.messages ++
           [{ sender := normalizeVal sr1, text := t1, createdAt := n1 }] } :: post }) := by
    simp [appendMessage, hwf, hdb, hpush1]
  refine ⟨h1, ?_⟩
  intro sr2 t2 n2
  rw [h1]
  have hpush2 := pushMessage_eq_of_split
    { sender := normalizeVal sr2, text := t2, createdAt := n2 } c.cid pre post
    { c with messages := c.messages ++
      [{ sender := normalizeVal sr1, text := t1, createdAt := n1 }] } hpre rfl
  simp [appendMessage, hwf, hpush2]

/-- C7 (witness): appending "hello" then "world" to the sample
conversation leaves the stored log [m1, m2] in that order. -/
theorem C7_witness :
    (appendMessage (appendMessage sampleDB sampleConvo.cid (JSVal.str "7") "hello" 5).2
        sampleConvo.cid (JSVal.num 8) "world" 6).1 =
      .ok { sampleConvo with messages := sampleConvo.messages ++
        [{ sender := normalizeVal (JSVal.str "7"), text := "hello", createdAt := 5 },
         { sender := normalizeVal (JSVal.num 8), text := "world", createdAt := 6 }] } :=
  (C7_append_appends sampleDB [] [] sampleConvo (.str "7") "hello" 5 rfl
    (by simp) (by decide)).2 (.num 8) "world" 6

theorem inRoom_of_mem_roomMembers {rs : RoomState} {conn : ConnId} {room : String}
    (h : conn ∈ roomMembers rs room) : inRoom rs conn room = true := by
  simp only [roomMembers, List.mem_map, List.mem_filter] at h
  obtain ⟨⟨c1, r1⟩, ⟨hmem, hr⟩, hc⟩ := h
  simp only [decide_eq_true_eq] at hr
  simp only [inRoom, decide_eq_true_eq]
  rw [← hc, ← hr]
  exact hmem

/-- C8: realtime delivery of send_message — when the target conversation
exists, the handler emits receive_message carrying exactly the newly
created message payload (not the whole conversation) to precisely the
connections currently in the conversation's group, the sender included
whenever it has joined that group; a connection whose only memberships are
in other rooms receives nothing; and when the conversation does not
exist, message_error is emitted to the sending connection only, with no
broadcast and no store change. -/
theorem C8_send_message_delivery (db : DB) (rs : RoomState) (sender : ConnId)
    (i : String) (ms : JSVal) (mt : String) (now : Nat) :
    (∀ pre c post, db.convos = pre ++ c :: post → (∀ d ∈ pre, d.cid ≠ i) →
      c.cid = i → wellFormedId i = true →
      ((sendMessageAtomic db rs sender i ms mt now).2 =
        (roomMembers rs i).map (fun conn => Emit.receiveMsg conn
          [("sender", normalizeVal ms), ("text", JSVal.str mt),
           ("createdAt", JSVal.date now)]) ∧
       (sender ∈ roomMembers rs i → Emit.receiveMsg sender
          [("sender", normalizeVal ms), ("text", JSVal.str mt),
           ("createdAt", JSVal.date now)] ∈
            (sendMessageAtomic db rs sender i ms mt now).2) ∧
       (∀ j, j ∉ roomMembers rs i →
          ∀ e ∈ (sendMessageAtomic db rs sender i ms mt now).2, Emit.target e ≠ j) ∧
       (∀ j A, (∀ r, inRoom rs j r = true → r = A) → A ≠ i →
          ∀ e ∈ (sendMessageAtomic db rs sender i ms mt now).2, Emit.target e ≠ j))) ∧
    (wellFormedId i = true → (∀ c ∈ db.convos, c.cid ≠ i) →
      sendMessageAtomic db rs sender i ms mt now =
        (db, [Emit.msgError sender "Conversation not found"])) := by
  constructor
  · intro pre c post hdb hpre hci hwf
    have hpush := pushMessage_eq_of_split
      { sender := normalizeVal ms, text := mt, createdAt := now } i pre post c hpre hci
    have hout : (sendMessageAtomic db rs sender i ms mt now).2 =
        (roomMembers rs i).map (fun conn => Emit.receiveMsg conn
          [("sender", normalizeVal ms), ("text", JSVal.str mt),
           ("createdAt", JSVal.date now)]) := by
      simp [sendMessageAtomic, hwf, hdb, hpush]
    refine ⟨hout, ?_, ?_, ?_⟩
    · intro hmem
      rw [hout]
      exact List.mem_map_of_mem _ hmem
    · intro j hj e he hje
      rw [hout] at he
      obtain ⟨conn, hconn, rfl⟩ := List.mem_map.mp he
      simp only [Emit.target] at hje
      exact hj (hje ▸ hconn)
    · intro j A honly hAi e he hje
      rw [hout] at he
      obtain ⟨conn, hconn, rfl⟩ := List.mem_map.mp he
      simp only [Emit.target] at hje
      have hin : inRoom rs j i = true :=
        inRoom_of_mem_roomMembers (hje ▸ hconn)
      exact hAi (honly i hin).symm
  · intro hwf hall
    have hpush : pushMessage
        { sender := normalizeVal ms, text := mt, createdAt := now } db.convos i = none :=
      (pushMessage_eq_none_iff _ _ _).mpr hall
    simp [sendMessageAtomic, hwf, hpush]

/-- C8 (witness): the delivery statement instantiated at the sample store
and room table, and the error branch at a well-formed id no conversation
carries. -/
theorem C8_witness :
    ((sendMessageAtomic sampleDB sampleRooms 1 sampleConvo.cid
        (JSVal.str "42") "hi" 7).2 =
      (roomMembers sampleRooms sampleConvo.cid).map (fun conn =>
        Emit.receiveMsg conn
          [("sender", normalizeVal (JSVal.str "42")), ("text", JSVal.str "hi"),
           ("createdAt", JSVal.date 7)])) ∧
    sendMessageAtomic sampleDB sampleRooms 1 "bbbbbbbbbbbbbbbbbbbbbbbb"
        (JSVal.str "42") "hi" 7 =
      (sampleDB, [Emit.msgError 1 "Conversation not found"]) :=
  ⟨((C8_send_message_delivery sampleDB sampleRooms 1 sampleConvo.cid
      (.str "42") "hi" 7).1 [] sampleConvo [] rfl (by simp) rfl (by decide)).1,
   (C8_send_message_delivery sampleDB sampleRooms 1 "bbbbbbbbbbbbbbbbbbbbbbbb"
      (.str "42") "hi" 7).2 (by decide) (by decide)⟩

/-- C9 (counterexample): the claim that conversation retrieval yields only
the record or a 404 — with an ill-formed id also surfaced as NotFound — is
false on the code: the GET handler has no CastError branch, so an
ill-formed id falls into the generic catch and is answered with the 500
server error, a distinct outcome from NotFound. -/
theorem C9_counterexample :
    getConversation emptyDB "nonexistent-id" = GetOutcome.serverError ∧
    GetOutcome.serverError ≠ GetOutcome.notFound := by
  decide

/-- C9 (amended): retrieval of a well-formed id yields the stored record
or 404 and nothing else, but an ill-formed id is surfaced as the generic
500 server error rather than NotFound. -/
theorem C9_amended (db : DB) (i : String) :
    (wellFormedId i = true → db.convos.find? (fun c => c.cid = i) = none →
        getConversation db i = .notFound) ∧
    (∀ c, wellFormedId i = true → db.convos.find? (fun c => c.cid = i) = some c →
        getConversation db i = .ok c) ∧
    (wellFormedId i = false → getConversation db i = .serverError) := by
  refine ⟨?_, ?_, ?_⟩ <;> intros <;> simp [getConversation, *]

/-- C9 (witness): the three outcomes instantiated at the sample store. -/
theorem C9_amended_witness :
    getConversation sampleDB "bbbbbbbbbbbbbbbbbbbbbbbb" = GetOutcome.notFound ∧
    getConversation sampleDB sampleConvo.cid = GetOutcome.ok sampleConvo ∧
    getConversation sampleDB "nonexistent-id" = GetOutcome.serverError :=
  ⟨(C9_amended sampleDB "bbbbbbbbbbbbbbbbbbbbbbbb").1 (by decide) (by decide),
   (C9_amended sampleDB sampleConvo.cid).2.1 sampleConvo (by decide) (by decide),
   (C9_amended sampleDB "nonexistent-id").2.2 (by decide)⟩

/-- C10 (counterexample): the two send_message variants are not
equivalent: on the same store state and input, the atomic variant stores a
normalized sender and emits a payload with a createdAt field, while the
load-push-save variant stores the raw sender and emits a payload with a
timestamp field — both the stored state and the emitted payloads differ at
this concrete input. -/
theorem C10_counterexample :
    (sendMessageAtomic sampleDB sampleRooms 1 sampleConvo.cid
        (JSVal.str "42") "hi" 7).2 ≠
      (sendMessageLoadSave sampleDB sampleRooms 1 sampleConvo.cid
        (JSVal.str "42") "hi" none 7).2 ∧
    (sendMessageAtomic sampleDB sampleRooms 1 sampleConvo.cid
        (JSVal.str "42") "hi" 7).1 ≠
      (sendMessageLoadSave sampleDB sampleRooms 1 sampleConvo.cid
        (JSVal.str "42") "hi" none 7).1 := by
  decide

/-- C10 (amended): the two variants agree on the set and order of target
connections (and on the error cases), and each appends exactly one message
with the given text to the target conversation; but they are not
equivalent: the atomic variant stores the normalized sender and emits
{sender, text, createdAt} with the server time, while the load-push-save
variant stores the raw sender and emits {sender, text, timestamp},
honoring a client-supplied timestamp. -/
theorem C10_amended (db : DB) (rs : RoomState) (sender : ConnId) (i : String)
    (ms : JSVal) (mt : String) (clientTs : Option Nat) (now : Nat) :
    ((sendMessageAtomic db rs sender i ms mt now).2.map Emit.target =
      (sendMessageLoadSave db rs sender i ms mt clientTs now).2.map Emit.target) ∧
    (∀ pre c post, db.convos = pre ++ c :: post → (∀ d ∈ pre, d.cid ≠ i) →
      c.cid = i → wellFormedId i = true →
      (sendMessageAtomic db rs sender i ms mt now =
        ({ db with convos := pre ++ { c with messages := c.messages ++
            [{ sender := normalizeVal ms, text := mt, createdAt := now }] } :: post },
         (roomMembers rs i).map (fun conn => Emit.receiveMsg conn
           [("sender", normalizeVal ms), ("text", JSVal.str mt),
            ("createdAt", JSVal.date now)])) ∧
       sendMessageLoadSave db rs sender i ms mt clientTs now =
        ({ db with convos := pre ++ { c with messages := c.messages ++
            [{ sender := ms, text := mt, createdAt := clientTs.getD now }] } :: post },
         (roomMembers rs i).map (fun conn => Emit.receiveMsg conn
           [("sender", ms), ("text", JSVal.str mt),
            ("timestamp", JSVal.date (clientTs.getD now))])))) := by
  constructor
  · by_cases hwf : wellFormedId i
    · by_cases hall : ∀ c ∈ db.convos, c.cid ≠ i
      · have hA := (pushMessage_eq_none_iff
          { sender := normalizeVal ms, text := mt, createdAt := now } db.convos i).mpr hall
        have hB := (pushMessage_eq_none_iff
          { sender := ms, text := mt, createdAt := clientTs.getD now } db.convos i).mpr hall
        simp [sendMessageAtomic, sendMessageLoadSave, hwf, hA, hB]
      · cases hA : pushMessage
            { sender := normalizeVal ms, text := mt, createdAt := now } db.convos i with
        | none => exact absurd ((pushMessage_eq_none_iff _ _ _).mp hA) hall
        | some x =>
            cases hB : pushMessage
                { sender := ms, text := mt, createdAt := clientTs.getD now } db.convos i with
            | none => exact absurd ((pushMessage_eq_none_iff _ _ _).mp hB) hall
            | some y =>
                simp [sendMessageAtomic, sendMessageLoadSave, hwf, hA, hB,
                  List.map_map, Function.comp, Emit.target]
    · simp [sendMessageAtomic, sendMessageLoadSave, hwf]
  · intro pre c post hdb hpre hci hwf
    have hpushA := pushMessage_eq_of_split
      { sender := normalizeVal ms, text := mt, createdAt := now } i pre post c hpre hci
    have hpushB := pushMessage_eq_of_split
      { sender := ms, text := mt, createdAt := clientTs.getD now } i pre post c hpre hci
    exact ⟨by simp [sendMessageAtomic, hwf, hdb, hpushA],
           by simp [sendMessageLoadSave, hwf, hdb, hpushB]⟩

/-- C10 (witness): the amended statement instantiated at the sample store
with a client-supplied timestamp, exhibiting the load-push-save variant's
raw sender and timestamp-field payload. -/
theorem C10_amended_witness :
    ((sendMessageAtomic sampleDB sampleRooms 1 sampleConvo.cid
        (JSVal.str "42") "hi" 7).2.map Emit.target =
      (sendMessageLoadSave sampleDB sampleRooms 1 sampleConvo.cid
        (JSVal.str "42") "hi" (some 3) 7).2.map Emit.target) ∧
    sendMessageLoadSave sampleDB sampleRooms 1 sampleConvo.cid
        (JSVal.str "42") "hi" (some 3) 7 =
      ({ sampleDB with convos := [] ++ { sampleConvo with
           messages := sampleConvo.messages ++
            [{ sender := JSVal.str "42", text := "hi",
               createdAt := (some 3 : Option Nat).getD 7 }] } :: [] },
       (roomMembers sampleRooms sampleConvo.cid).map (fun conn =>
         Emit.receiveMsg conn
           [("sender", JSVal.str "42"), ("text", JSVal.str "hi"),
            ("timestamp", JSVal.date ((some 3 : Option Nat).getD 7))])) :=
  ⟨(C10_amended sampleDB sampleRooms 1 sampleConvo.cid (.str "42") "hi"
      (some 3) 7).1,
   ((C10_amended sampleDB sampleRooms 1 sampleConvo.cid (.str "42") "hi"
      (some 3) 7).2 [] sampleConvo [] rfl (by simp) rfl (by decide)).2⟩

end Swapex
